import Mathlib

/-!
# Formal model of `weather_analysis.py`

A shallow embedding of the weather-pipeline script: synthetic dataset
generation (`generate_weather_data`), the caller-visible effect of the two
plotting functions, CSV persistence as performed by `main` via
`df.to_csv(csv_file, index=False)`, a CSV parser for the produced format,
the histogram computation performed by `plt.hist(df["temperature"], bins=20)`
(numpy `histogram` semantics, including its documented widening of a
degenerate `[t, t]` range to `[t - 0.5, t + 0.5]`), and the two HDFS sync
helpers built on `os.system`.

Machine floats are modelled by rationals: `random.uniform(-5, 35)` becomes an
arbitrary stream `temps : ℕ → ℚ` of values (consumed in call order), and
Python's `round(x, 1)` becomes rounding to an integer number of tenths with
ties going to the even neighbour, exactly as documented for Python `round`.
Calendar dates (`datetime.date`) are year/month/day triples with Gregorian
day arithmetic; `today - datetime.timedelta(days=k)` is `k` iterations of the
previous-day function.
-/

/-- Gregorian leap-year test, as implemented by `datetime`. -/
def isLeap (y : ℤ) : Bool := (y % 4 == 0 && y % 100 != 0) || (y % 400 == 0)

/-- Number of days in month `m` of year `y` (Gregorian calendar). -/
def daysInMonth (y m : ℤ) : ℤ :=
  if m = 2 then (if isLeap y then 29 else 28)
  else if m = 4 ∨ m = 6 ∨ m = 9 ∨ m = 11 then 30
  else 31

/-- Model of `datetime.date`: a calendar date as a year/month/day triple. -/
structure PyDate where
  year : ℤ
  month : ℤ
  day : ℤ
deriving DecidableEq

/-- The previous calendar day, i.e. `d - datetime.timedelta(days=1)`. -/
def PyDate.pred (d : PyDate) : PyDate :=
  if 1 < d.day then ⟨d.year, d.month, d.day - 1⟩
  else if 1 < d.month then ⟨d.year, d.month - 1, daysInMonth d.year (d.month - 1)⟩
  else ⟨d.year - 1, 12, 31⟩

/-- `d - datetime.timedelta(days=n)`. -/
def subDays (d : PyDate) (n : ℕ) : PyDate := PyDate.pred^[n] d

/-- Field bounds satisfied by every real `datetime.date` value
(`datetime.date.today()` in particular). -/
def PyDate.ok (d : PyDate) : Prop :=
  1 ≤ d.month ∧ d.month ≤ 12 ∧ 1 ≤ d.day ∧ d.day ≤ 31

instance : DecidablePred PyDate.ok := fun d =>
  decidable_of_iff (1 ≤ d.month ∧ d.month ≤ 12 ∧ 1 ≤ d.day ∧ d.day ≤ 31) Iff.rfl

/-- A linear measure of a date, strictly decreased by `PyDate.pred` on dates
with positive month and day fields; used to order and separate dates. -/
def dateMu (d : PyDate) : ℤ := 372 * d.year + 31 * d.month + d.day

/-- Python `round` to an integer: round half to even (banker's rounding). -/
def roundHalfToEven (x : ℚ) : ℤ :=
  if x - ⌊x⌋ < 1 / 2 then ⌊x⌋
  else if 1 / 2 < x - ⌊x⌋ then ⌊x⌋ + 1
  else if 2 ∣ ⌊x⌋ then ⌊x⌋ else ⌊x⌋ + 1

/-- Python `round(x, 1)`: round to one fractional decimal digit. -/
def round1 (x : ℚ) : ℚ := (roundHalfToEven (x * 10) : ℚ) / 10

/-- One row of the generated DataFrame: `[date_i, city, round(temp, 1)]`. -/
structure Reading where
  date : PyDate
  city : String
  temperature : ℚ
deriving DecidableEq

/-- The nested loop of `generate_weather_data`, over the remaining cities.
`k` counts the cities already processed, so the reading for day offset `i`
of the `k`-th city consumes the `k * n + i`-th output of the random source,
matching the global call order of `random.uniform(-5, 35)`. -/
def genAux (today : PyDate) (n : ℕ) (temps : ℕ → ℚ) :
    List String → ℕ → List Reading
  | [], _ => []
  | c :: rest, k =>
      ((List.range n).map fun i =>
        { date := subDays today (n - i)
          city := c
          temperature := round1 (temps (k * n + i)) }) ++
      genAux today n temps rest (k + 1)

/-- `generate_weather_data`, parameterised by the quantities the source fixes
(`today = datetime.date.today()`, the city list, the 30-day window) and by
the stream of `random.uniform(-5, 35)` outputs.  For each city and each
`i in range(n)` it emits one reading dated `today - timedelta(days=n - i)`
with temperature `round(uniform(-5, 35), 1)`.  The source performs no
parameter validation. -/
def generate_weather_data (today : PyDate) (cities : List String) (n : ℕ)
    (temps : ℕ → ℚ) : List Reading :=
  genAux today n temps cities 0

/-- The fixed city list of the script. -/
def theCities : List String :=
  ["London", "New York", "Tokyo", "Berlin", "Moscow", "Sydney"]

/-- The script's fixed configuration: 6 cities, 30-day window. -/
def generateFixed (today : PyDate) (temps : ℕ → ℚ) : List Reading :=
  generate_weather_data today theCities 30 temps

/-- The list of dates produced for each single city, in emission order:
`today - (n - i)` days for `i in range(n)`. -/
def cityDates (today : PyDate) (n : ℕ) : List PyDate :=
  (List.range n).map fun i => subDays today (n - i)

/-- Error value named by the spec for malformed synthesis parameters. -/
inductive InvalidParameterError where
  | mk : InvalidParameterError
deriving DecidableEq

/-- The outcome of calling `generate_weather_data`: the source body runs no
validation and raises nothing, so the call always returns its dataset. -/
def generateResult (today : PyDate) (cities : List String) (n : ℕ)
    (temps : ℕ → ℚ) : Except InvalidParameterError (List Reading) :=
  Except.ok (generate_weather_data today cities n temps)

/-- Error value named by the spec for remote-sync failures. -/
inductive RemoteSyncError where
  | exitStatus : String → ℤ → RemoteSyncError
  | launchFailure : String → RemoteSyncError
deriving DecidableEq

/-- The shell command built by `save_results_to_hdfs`. -/
def putCommand (localPath hdfsPath : String) : String :=
  "hadoop fs -put -f " ++ localPath ++ " " ++ hdfsPath

/-- The shell command built by `get_results_from_hdfs`. -/
def getCommand (hdfsPath localPath : String) : String :=
  "hadoop fs -get -f " ++ hdfsPath ++ " " ++ localPath

/-- `save_results_to_hdfs`: runs `os.system(cmd)` and discards the returned
exit status — the source never looks at it, so the call reports success
whatever the external command did.  `system` abstracts `os.system`, mapping
each command line to its exit status. -/
def save_results_to_hdfs (system : String → ℤ) (localPath hdfsPath : String) :
    Except RemoteSyncError Unit :=
  let _ := system (putCommand localPath hdfsPath)
  Except.ok ()

/-- `get_results_from_hdfs`: same shape as `save_results_to_hdfs`, with the
`-get` command; the exit status is likewise discarded. -/
def get_results_from_hdfs (system : String → ℤ) (hdfsPath localPath : String) :
    Except RemoteSyncError Unit :=
  let _ := system (getCommand hdfsPath localPath)
  Except.ok ()

/-- Minimum of a list of rationals (`numpy` `a.min()`); 0 on the empty list,
which the callers never pass. -/
def listMin : List ℚ → ℚ
  | [] => 0
  | x :: xs => xs.foldl min x

/-- Maximum of a list of rationals (`numpy` `a.max()`). -/
def listMax : List ℚ → ℚ
  | [] => 0
  | x :: xs => xs.foldl max x

/-- Lower edge of the histogram range: `np.histogram` uses the data minimum,
widened by 0.5 when the data range is degenerate (documented behaviour of
`np.histogram_bin_edges` when `first_edge == last_edge`). -/
def histLo (l : List ℚ) : ℚ :=
  if listMin l = listMax l then listMin l - 1 / 2 else listMin l

/-- Upper edge of the histogram range, widened symmetrically when
degenerate. -/
def histHi (l : List ℚ) : ℚ :=
  if listMin l = listMax l then listMax l + 1 / 2 else listMax l

/-- Bin index of a sample for 20 equal-width bins over `[lo, hi]`: values in
`[lo + j*w, lo + (j+1)*w)` land in bin `j` (`w = (hi - lo)/20`), and the last
bin is closed so `hi` lands in bin 19, as in `np.histogram`. -/
def binIdx (lo hi x : ℚ) : ℕ :=
  min 19 (Int.toNat ⌊(x - lo) * 20 / (hi - lo)⌋)

/-- The 20 per-bin frequencies computed by
`plt.hist(df["temperature"], bins=20)`. -/
def histCounts (l : List ℚ) : List ℕ :=
  (List.range 20).map fun j => l.countP fun x => binIdx (histLo l) (histHi l) x == j

/-- The `j`-th bin edge (`j = 0, …, 20`) of the 20-bin histogram. -/
def binEdge (l : List ℚ) (j : ℕ) : ℚ :=
  histLo l + j * (histHi l - histLo l) / 20

/-- The temperature column `df["temperature"]`. -/
def temperaturesOf (df : List Reading) : List ℚ := df.map Reading.temperature

/-- A cell of the DataFrame's date column: either a `datetime.date` object
(as produced by `generate_weather_data`) or the `pandas` `Timestamp` that
`pd.to_datetime` converts it into. -/
inductive DateCell where
  | pyDate : PyDate → DateCell
  | timestamp : PyDate → DateCell
deriving DecidableEq

/-- `pd.to_datetime` on one date cell. -/
def toDatetime : DateCell → DateCell
  | .pyDate d => .timestamp d
  | .timestamp d => .timestamp d

/-- The calendar date a cell denotes, whatever its representation. -/
def cellDate : DateCell → PyDate
  | .pyDate d => d
  | .timestamp d => d

/-- The caller-visible state of the DataFrame after
`plot_temperature_changes(df)` returns: the statement
`df["date"] = pd.to_datetime(df["date"])` converts the date column of the
caller's object in place; the subsequent `df = df.sort_values(...)` rebinds a
local name to a sorted copy, so the caller's row order is untouched. -/
def plot_temperature_changes (df : List (DateCell × String × ℚ)) :
    List (DateCell × String × ℚ) :=
  df.map fun r => (toDatetime r.1, r.2.1, r.2.2)

/-- The caller-visible state of the DataFrame after
`plot_temperature_distribution(df)` returns: the function only reads
`df["temperature"]`, mutating nothing. -/
def plot_temperature_distribution (df : List (DateCell × String × ℚ)) :
    List (DateCell × String × ℚ) :=
  df

/-- The DataFrame rows as handed to the plotting functions by `main`: dates
are `datetime.date` objects fresh from `generate_weather_data`. -/
def dfOf (l : List Reading) : List (DateCell × String × ℚ) :=
  l.map fun r => (DateCell.pyDate r.date, r.city, r.temperature)

/-- The decimal digit character for `k < 10`. -/
def digitChar (k : ℕ) : Char := Char.ofNat (48 + k)

/-- The decimal digits of `n`, most significant first, as `%d` prints them. -/
def natDigits (n : ℕ) : List Char :=
  if n = 0 then ['0'] else (Nat.digits 10 n).reverse.map digitChar

/-- `%0wd`: the decimal digits of `n` left-padded with zeros to width `w`. -/
def padTo (w n : ℕ) : List Char :=
  List.replicate (w - (natDigits n).length) '0' ++ natDigits n

/-- `str(date)`: ISO-8601 `YYYY-MM-DD`, i.e. `%04d-%02d-%02d` of the three
fields (every real `datetime.date` has nonnegative fields). -/
def formatDateChars (d : PyDate) : List Char :=
  padTo 4 d.year.toNat ++ '-' :: (padTo 2 d.month.toNat ++ '-' :: padTo 2 d.day.toNat)

/-- The decimal rendering of a one-fractional-digit temperature, as `repr`
prints the float produced by `round(x, 1)`: optional sign, integer part,
`'.'`, one digit. -/
def formatTempChars (q : ℚ) : List Char :=
  (if ⌊q * 10⌋ < 0 then ['-'] else []) ++
    natDigits (⌊q * 10⌋.natAbs / 10) ++ '.' :: [digitChar (⌊q * 10⌋.natAbs % 10)]

/-- One CSV data row, as `df.to_csv(csv_file, index=False)` writes it. -/
def renderRowChars (r : Reading) : List Char :=
  formatDateChars r.date ++ ',' :: (r.city.data ++ ',' :: formatTempChars r.temperature)

/-- The lines of `weather_data.csv`: the header followed by one row per
reading, in insertion order. -/
def persist (df : List Reading) : List String :=
  "date,city,temperature" :: df.map fun r => String.mk (renderRowChars r)

/-- Split a character list at every occurrence of `sep` (CSV field / date
component splitting). -/
def splitOnChar (sep : Char) : List Char → List (List Char)
  | [] => [[]]
  | c :: cs =>
      if c = sep then [] :: splitOnChar sep cs
      else
        match splitOnChar sep cs with
        | [] => [[c]]
        | f :: rest => (c :: f) :: rest

/-- Read back a decimal numeral. -/
def parseNatChars (cs : List Char) : ℕ :=
  cs.foldl (fun acc c => 10 * acc + (c.toNat - 48)) 0

/-- Parse an ISO-8601 `YYYY-MM-DD` date back into its three fields. -/
def parseDateChars (cs : List Char) : Option PyDate :=
  match splitOnChar '-' cs with
  | [a, b, c] =>
      some ⟨(parseNatChars a : ℤ), (parseNatChars b : ℤ), (parseNatChars c : ℤ)⟩
  | _ => none

/-- Parse an unsigned decimal with a fractional part. -/
def parseTempPos (cs : List Char) : ℚ :=
  match splitOnChar '.' cs with
  | [a, b] => (parseNatChars a : ℚ) + (parseNatChars b : ℚ) / (10 : ℚ) ^ b.length
  | _ => 0

/-- Parse a signed decimal temperature. -/
def parseTempChars : List Char → ℚ
  | [] => 0
  | c :: rest => if c = '-' then -parseTempPos rest else parseTempPos (c :: rest)

/-- Parse one CSV data row back into a reading. -/
def parseRowChars (cs : List Char) : Option Reading :=
  match splitOnChar ',' cs with
  | [d, c, t] =>
      (parseDateChars d).map fun pd => ⟨pd, String.mk c, parseTempChars t⟩
  | _ => none

/-- Parse the persisted CSV: skip the header, parse every data row. -/
def parseCsv (lines : List String) : Option (List Reading) :=
  (lines.drop 1).mapM fun s => parseRowChars s.data

/-- A one-row dataset whose single temperature makes the observed range
degenerate. -/
def dfOne : List Reading := [⟨⟨2025, 1, 1⟩, "London", 5⟩]

/-! ## Calendar lemmas -/

lemma daysInMonth_bounds (y m : ℤ) :
    1 ≤ daysInMonth y m ∧ daysInMonth y m ≤ 31 := by
  unfold daysInMonth
  split
  · split <;> omega
  · split <;> omega

lemma dateMu_pred_lt {d : PyDate} (h1 : 1 ≤ d.month) (h2 : 1 ≤ d.day) :
    dateMu d.pred < dateMu d := by
  have hb := daysInMonth_bounds d.year (d.month - 1)
  unfold PyDate.pred dateMu
  split
  · simp only
    omega
  · split <;> simp only <;> omega

lemma PyDate.ok.pred {d : PyDate} (h : d.ok) : d.pred.ok := by
  have hb := daysInMonth_bounds d.year (d.month - 1)
  obtain ⟨h1, h2, h3, h4⟩ := h
  unfold PyDate.pred PyDate.ok
  split
  · simp only
    omega
  · split <;> simp only <;> omega


lemma subDays_succ (d : PyDate) (k : ℕ) :
    subDays d (k + 1) = PyDate.pred (subDays d k) :=
  Function.iterate_succ_apply' _ _ _

lemma ok_subDays {d : PyDate} (h : d.ok) (k : ℕ) : (subDays d k).ok := by
  induction k with
  | zero => exact h
  | succ k ih =>
      rw [subDays_succ]
      exact ih.pred

lemma dateMu_subDays_succ_lt {d : PyDate} (h : d.ok) (k : ℕ) :
    dateMu (subDays d (k + 1)) < dateMu (subDays d k) := by
  rw [subDays_succ]
  obtain ⟨h1, _, h2, _⟩ := ok_subDays h k
  exact dateMu_pred_lt h1 h2

lemma dateMu_subDays_strictAnti {d : PyDate} (h : d.ok) {a b : ℕ} (hab : a < b) :
    dateMu (subDays d b) < dateMu (subDays d a) := by
  obtain ⟨m, rfl⟩ : ∃ m, b = a + m + 1 := ⟨b - a - 1, by omega⟩
  clear hab
  induction m with
  | zero => exact dateMu_subDays_succ_lt h a
  | succ m ih =>
      have step := dateMu_subDays_succ_lt h (a + m + 1)
      have : a + (m + 1) + 1 = (a + m + 1) + 1 := by omega
      rw [this]
      exact step.trans ih

lemma subDays_inj {d : PyDate} (h : d.ok) {a b : ℕ}
    (hab : subDays d a = subDays d b) : a = b := by
  rcases Nat.lt_trichotomy a b with hlt | heq | hgt
  · have := dateMu_subDays_strictAnti h hlt
    rw [hab] at this
    omega
  · exact heq
  · have := dateMu_subDays_strictAnti h hgt
    rw [hab] at this
    omega

lemma subDays_ne_self {d : PyDate} (h : d.ok) {k : ℕ} (hk : 0 < k) :
    subDays d k ≠ d := by
  intro hc
  have h0 : subDays d 0 = d := rfl
  have := subDays_inj h (hc.trans h0.symm)
  omega

lemma pred_year_ge (d : PyDate) : d.year - 1 ≤ d.pred.year := by
  unfold PyDate.pred
  split
  · simp only
    omega
  · split <;> simp only <;> omega

lemma subDays_year_ge (d : PyDate) (k : ℕ) :
    d.year - k ≤ (subDays d k).year := by
  induction k with
  | zero => simp [subDays]
  | succ k ih =>
      rw [subDays_succ]
      have := pred_year_ge (subDays d k)
      push_cast
      push_cast at ih
      omega

/-! ## Rounding lemmas -/

lemma roundHalfToEven_bounds {x : ℚ} {a b : ℤ} (ha : (a : ℚ) ≤ x)
    (hb : x ≤ (b : ℚ)) : a ≤ roundHalfToEven x ∧ roundHalfToEven x ≤ b := by
  have hna : a ≤ ⌊x⌋ := Int.le_floor.mpr ha
  have hnb : (⌊x⌋ : ℚ) ≤ b := (Int.floor_le x).trans hb
  have hnb' : ⌊x⌋ ≤ b := by exact_mod_cast hnb
  have hup : ¬(x - ⌊x⌋ < 1 / 2) → ⌊x⌋ + 1 ≤ b := by
    intro hh
    by_contra hc
    have hbn : b ≤ ⌊x⌋ := by omega
    have hxb : x ≤ (⌊x⌋ : ℚ) := le_trans hb (by exact_mod_cast hbn)
    exact hh (by linarith)
  unfold roundHalfToEven
  split
  · exact ⟨hna, hnb'⟩
  · next h1 =>
      split
      · exact ⟨by omega, hup h1⟩
      · split
        · exact ⟨hna, hnb'⟩
        · exact ⟨by omega, hup h1⟩

lemma round1_bounds {x : ℚ} (h1 : -5 ≤ x) (h2 : x ≤ 35) :
    -5 ≤ round1 x ∧ round1 x ≤ 35 := by
  have ha : ((-50 : ℤ) : ℚ) ≤ x * 10 := by push_cast; linarith
  have hb : x * 10 ≤ ((350 : ℤ) : ℚ) := by push_cast; linarith
  obtain ⟨hl, hr⟩ := roundHalfToEven_bounds ha hb
  have hl' : ((-50 : ℤ) : ℚ) ≤ (roundHalfToEven (x * 10) : ℚ) := by exact_mod_cast hl
  have hr' : ((roundHalfToEven (x * 10) : ℤ) : ℚ) ≤ ((350 : ℤ) : ℚ) := by
    exact_mod_cast hr
  unfold round1
  push_cast at hl' hr'
  constructor <;> linarith

lemma round1_tenth (x : ℚ) : ∃ m : ℤ, round1 x = (m : ℚ) / 10 :=
  ⟨roundHalfToEven (x * 10), rfl⟩

/-! ## Generator structure lemmas -/

lemma genAux_length (today : PyDate) (n : ℕ) (temps : ℕ → ℚ) :
    ∀ (cs : List String) (k : ℕ),
      (genAux today n temps cs k).length = cs.length * n := by
  intro cs
  induction cs with
  | nil => intro k; simp [genAux]
  | cons c rest ih =>
      intro k
      simp only [genAux, List.length_append, List.length_map, List.length_range,
        ih, List.length_cons]
      ring

lemma mem_genAux {today : PyDate} {n : ℕ} {temps : ℕ → ℚ} :
    ∀ {cs : List String} {k : ℕ} {r : Reading}, r ∈ genAux today n temps cs k →
      r.city ∈ cs ∧ (∃ j, 1 ≤ j ∧ j ≤ n ∧ r.date = subDays today j) ∧
        ∃ m, r.temperature = round1 (temps m) := by
  intro cs
  induction cs with
  | nil => intro k r h; simp [genAux] at h
  | cons c rest ih =>
      intro k r h
      simp only [genAux, List.mem_append, List.mem_map, List.mem_range] at h
      rcases h with ⟨i, hi, rfl⟩ | h
      · exact ⟨by simp, ⟨n - i, by omega, by omega, rfl⟩, ⟨k * n + i, rfl⟩⟩
      · obtain ⟨hc, hd, ht⟩ := ih h
        exact ⟨List.mem_cons_of_mem _ hc, hd, ht⟩

lemma genAux_map_key (today : PyDate) (n : ℕ) (temps : ℕ → ℚ) :
    ∀ (cs : List String) (k : ℕ),
      (genAux today n temps cs k).map (fun r => (r.city, r.date)) =
        cs.flatMap fun c => (List.range n).map fun i => (c, subDays today (n - i)) := by
  intro cs
  induction cs with
  | nil => intro k; rfl
  | cons c rest ih =>
      intro k
      simp only [genAux, List.map_append, List.map_map, List.flatMap_cons, ih]
      rfl

lemma genAux_map_date (today : PyDate) (n : ℕ) (temps : ℕ → ℚ) :
    ∀ (cs : List String) (k : ℕ),
      (genAux today n temps cs k).map Reading.date =
        cs.flatMap fun _ => cityDates today n := by
  intro cs
  induction cs with
  | nil => intro k; rfl
  | cons c rest ih =>
      intro k
      simp only [genAux, List.map_append, List.map_map, List.flatMap_cons, ih]
      rfl

lemma genAux_map_city (today : PyDate) (n : ℕ) (temps : ℕ → ℚ) :
    ∀ (cs : List String) (k : ℕ),
      (genAux today n temps cs k).map Reading.city =
        cs.flatMap fun c => List.replicate n c := by
  intro cs
  induction cs with
  | nil => intro k; rfl
  | cons c rest ih =>
      intro k
      simp only [genAux, List.map_append, List.map_map, List.flatMap_cons, ih]
      congr 1
      have hconst : (Reading.city ∘ fun i : ℕ =>
          (⟨subDays today (n - i), c, round1 (temps (k * n + i))⟩ : Reading)) =
          Function.const ℕ c := rfl
      rw [hconst, List.map_const, List.length_range]

lemma mem_cityDates {today : PyDate} {n : ℕ} {d : PyDate} :
    d ∈ cityDates today n ↔ ∃ j, 1 ≤ j ∧ j ≤ n ∧ d = subDays today j := by
  unfold cityDates
  simp only [List.mem_map, List.mem_range]
  constructor
  · rintro ⟨i, hi, rfl⟩
    exact ⟨n - i, by omega, by omega, rfl⟩
  · rintro ⟨j, h1, h2, rfl⟩
    exact ⟨n - j, by omega, by rw [show n - (n - j) = j by omega]⟩

lemma cityDates_length (today : PyDate) (n : ℕ) :
    (cityDates today n).length = n := by
  simp [cityDates]

lemma cityDates_nodup {today : PyDate} (hok : today.ok) (n : ℕ) :
    (cityDates today n).Nodup := by
  refine List.Nodup.map_on ?_ (List.nodup_range n)
  intro x hx y hy hxy
  simp only [List.mem_range] at hx hy
  have := subDays_inj hok hxy
  omega

lemma cityDates_chain' (today : PyDate) (n : ℕ) :
    List.Chain' (fun a b => a = PyDate.pred b) (cityDates today n) := by
  rw [List.chain'_iff_get]
  intro i hi
  rw [cityDates_length] at hi
  have hg : ∀ (j : ℕ) (hj : j < (cityDates today n).length),
      (cityDates today n).get ⟨j, hj⟩ = subDays today (n - j) := by
    intro j hj
    simp [cityDates]
  rw [hg i (by simp [cityDates_length]; omega), hg (i + 1) (by simp [cityDates_length]; omega)]
  have hstep : n - i = (n - (i + 1)) + 1 := by omega
  rw [hstep, subDays_succ]

lemma genAux_keys_nodup {today : PyDate} (hok : today.ok) (n : ℕ) (temps : ℕ → ℚ) :
    ∀ (cs : List String) (k : ℕ), cs.Nodup →
      ((genAux today n temps cs k).map fun r => (r.city, r.date)).Nodup := by
  intro cs
  induction cs with
  | nil => intro k _; simp [genAux]
  | cons c rest ih =>
      intro k hnd
      simp only [genAux, List.map_append, List.map_map]
      rw [List.nodup_append]
      refine ⟨?_, ih (k + 1) (List.nodup_cons.mp hnd).2, ?_⟩
      · refine List.Nodup.map_on ?_ (List.nodup_range n)
        intro x hx y hy hxy
        simp only [List.mem_range] at hx hy
        have hd : subDays today (n - x) = subDays today (n - y) := by
          simpa using congrArg Prod.snd hxy
        have := subDays_inj hok hd
        omega
      · rw [List.disjoint_left]
        intro a ha hb
        have ha1 : a.1 = c := by
          simp only [List.mem_map, List.mem_range, Function.comp] at ha
          obtain ⟨i, _, rfl⟩ := ha
          rfl
        rw [List.mem_map] at hb
        obtain ⟨r, hr, hkey⟩ := hb
        have hra : r.city = a.1 := congrArg Prod.fst hkey
        have hmem := (mem_genAux hr).1
        rw [hra, ha1] at hmem
        exact (List.nodup_cons.mp hnd).1 hmem

/-! ## Claim theorems -/

/-- C1: for every city set and window size, `generate_weather_data` produces
exactly `|C| × N` readings with pairwise distinct `(city, date)` keys, and in
the program's fixed configuration (6 cities, 30-day window) it produces
exactly 180 readings, no two sharing a `(city, date)` key. -/
theorem generate_count_unique (today : PyDate) (cities : List String) (n : ℕ)
    (temps : ℕ → ℚ) (hok : today.ok) (hn : 0 < n) (hc : cities.Nodup) :
    (generate_weather_data today cities n temps).length = cities.length * n ∧
    ((generate_weather_data today cities n temps).map fun r =>
      (r.city, r.date)).Nodup ∧
    (generateFixed today temps).length = 180 ∧
    ((generateFixed today temps).map fun r => (r.city, r.date)).Nodup := by
  refine ⟨genAux_length today n temps cities 0,
    genAux_keys_nodup hok n temps cities 0 hc, ?_, ?_⟩
  · rw [generateFixed, generate_weather_data, genAux_length]
    rfl
  · exact genAux_keys_nodup hok 30 temps theCities 0 (by decide)

/-- Witness for `generate_count_unique` at a concrete input. -/
theorem generate_count_unique_witness :
    (PyDate.ok ⟨2025, 3, 15⟩ ∧ 0 < 3 ∧ (["A", "B"] : List String).Nodup) ∧
    ((generate_weather_data ⟨2025, 3, 15⟩ ["A", "B"] 3 fun _ => 0).length =
        (["A", "B"] : List String).length * 3 ∧
      ((generate_weather_data ⟨2025, 3, 15⟩ ["A", "B"] 3 fun _ => 0).map fun r =>
        (r.city, r.date)).Nodup ∧
      (generateFixed ⟨2025, 3, 15⟩ fun _ => 0).length = 180 ∧
      ((generateFixed ⟨2025, 3, 15⟩ fun _ => 0).map fun r =>
        (r.city, r.date)).Nodup) :=
  ⟨⟨by decide, by decide, by decide⟩,
    generate_count_unique ⟨2025, 3, 15⟩ ["A", "B"] 3 (fun _ => 0)
      (by decide) (by decide) (by decide)⟩

set_option maxRecDepth 100000 in
/-- C2 counterexample: with `today = 2025-03-15` and a 30-day window, `today`
itself is not among the generated dates while `today − 30` is — the generated
window is not the claimed `(today − N, today]`. -/
theorem generate_window_claim_cex :
    (⟨2025, 3, 15⟩ : PyDate) ∉
      (generate_weather_data ⟨2025, 3, 15⟩ ["London"] 30 fun _ => 0).map
        Reading.date ∧
    subDays ⟨2025, 3, 15⟩ 30 ∈
      (generate_weather_data ⟨2025, 3, 15⟩ ["London"] 30 fun _ => 0).map
        Reading.date := by
  constructor
  · decide
  · decide

/-- C2 (amended): the generated dates cover the half-open window
`[today − N, today)`: `today − N` appears among the dates, `today` itself does
not, and per city the `N` consecutive days are covered without gaps or
duplicates. -/
theorem generate_window_halfopen (today : PyDate) (cities : List String)
    (n : ℕ) (temps : ℕ → ℚ) (hok : today.ok) (hn : 0 < n) :
    (∀ r ∈ generate_weather_data today cities n temps,
      r.date ∈ cityDates today n) ∧
    subDays today n ∈ cityDates today n ∧
    today ∉ cityDates today n ∧
    (cityDates today n).Nodup ∧
    List.Chain' (fun a b => a = PyDate.pred b) (cityDates today n) ∧
    (cityDates today n).length = n := by
  refine ⟨?_, ?_, ?_, cityDates_nodup hok n, cityDates_chain' today n,
    cityDates_length today n⟩
  · intro r hr
    obtain ⟨-, ⟨j, h1, h2, hd⟩, -⟩ := mem_genAux hr
    exact mem_cityDates.mpr ⟨j, h1, h2, hd⟩
  · exact mem_cityDates.mpr ⟨n, hn, le_refl n, rfl⟩
  · intro hmem
    obtain ⟨j, h1, h2, hd⟩ := mem_cityDates.mp hmem
    exact subDays_ne_self hok (by omega) hd.symm

/-- Witness for `generate_window_halfopen` at a concrete input. -/
theorem generate_window_halfopen_witness :
    (PyDate.ok ⟨2025, 3, 15⟩ ∧ 0 < 3) ∧
    ((∀ r ∈ generate_weather_data ⟨2025, 3, 15⟩ ["A", "B"] 3 fun _ => 0,
      r.date ∈ cityDates ⟨2025, 3, 15⟩ 3) ∧
    subDays ⟨2025, 3, 15⟩ 3 ∈ cityDates ⟨2025, 3, 15⟩ 3 ∧
    (⟨2025, 3, 15⟩ : PyDate) ∉ cityDates ⟨2025, 3, 15⟩ 3 ∧
    (cityDates ⟨2025, 3, 15⟩ 3).Nodup ∧
    List.Chain' (fun a b => a = PyDate.pred b) (cityDates ⟨2025, 3, 15⟩ 3) ∧
    (cityDates ⟨2025, 3, 15⟩ 3).length = 3) :=
  ⟨⟨by decide, by decide⟩,
    generate_window_halfopen ⟨2025, 3, 15⟩ ["A", "B"] 3 (fun _ => 0)
      (by decide) (by decide)⟩

/-- C3: every generated reading's temperature lies in `[-5, 35]` and is an
integer number of tenths, i.e. the result of rounding to exactly one decimal
digit. -/
theorem generate_temperature_range (today : PyDate) (cities : List String)
    (n : ℕ) (temps : ℕ → ℚ) (hr : ∀ k, -5 ≤ temps k ∧ temps k ≤ 35) :
    ∀ r ∈ generate_weather_data today cities n temps,
      (-5 ≤ r.temperature ∧ r.temperature ≤ 35) ∧
      ∃ m : ℤ, r.temperature = (m : ℚ) / 10 := by
  intro r hmem
  obtain ⟨-, -, m, hm⟩ := mem_genAux hmem
  refine ⟨?_, ?_⟩
  · rw [hm]
    exact round1_bounds (hr m).1 (hr m).2
  · rw [hm]
    exact round1_tenth _

/-- Witness for `generate_temperature_range` at a concrete input. -/
theorem generate_temperature_range_witness :
    (∀ k : ℕ, -5 ≤ (fun _ : ℕ => (0 : ℚ)) k ∧ (fun _ : ℕ => (0 : ℚ)) k ≤ 35) ∧
    ∀ r ∈ generate_weather_data ⟨2025, 3, 15⟩ theCities 30 fun _ => 0,
      (-5 ≤ r.temperature ∧ r.temperature ≤ 35) ∧
      ∃ m : ℤ, r.temperature = (m : ℚ) / 10 :=
  ⟨fun _ => by norm_num,
    generate_temperature_range ⟨2025, 3, 15⟩ theCities 30 (fun _ => 0)
      (fun _ => by norm_num)⟩

/-- C4 counterexample: with the external client reporting exit status 1 (as
`hadoop fs -put` does for a non-existent local file), `save_results_to_hdfs`
still returns success, and so does `get_results_from_hdfs` — the exit status
of `os.system` is never inspected. -/
theorem remote_sync_ignores_exit_cex :
    (fun _ : String => (1 : ℤ))
        (putCommand "missing.csv" "/user/u/weather_data.csv") ≠ 0 ∧
    save_results_to_hdfs (fun _ => 1) "missing.csv" "/user/u/weather_data.csv" =
      Except.ok () ∧
    get_results_from_hdfs (fun _ => 1) "/user/u/weather_data.csv" "local.csv" =
      Except.ok () :=
  ⟨by norm_num, rfl, rfl⟩

/-- C4 (amended): each operation builds and invokes the force-flagged client
command (`hadoop fs -put -f` / `hadoop fs -get -f`) but ignores the exit
status entirely: both operations report success whatever exit status the
external command returns, so failures — including `put` on a non-existent
local path — are silently swallowed. -/
theorem remote_sync_ignores_exit (system : String → ℤ)
    (localPath hdfsPath : String) :
    save_results_to_hdfs system localPath hdfsPath = Except.ok () ∧
    get_results_from_hdfs system hdfsPath localPath = Except.ok () ∧
    putCommand localPath hdfsPath =
      "hadoop fs -put -f " ++ localPath ++ " " ++ hdfsPath ∧
    getCommand hdfsPath localPath =
      "hadoop fs -get -f " ++ hdfsPath ++ " " ++ localPath :=
  ⟨rfl, rfl, rfl, rfl⟩

/-- C6 counterexample: after `plot_temperature_changes` returns, the caller's
DataFrame is not the one it passed in — the date cells have been converted in
place from `datetime.date` objects to `Timestamp`s. -/
theorem renderers_readonly_cex :
    plot_temperature_changes (dfOf dfOne) ≠ dfOf dfOne := by
  decide

/-- C6 (amended): `plot_temperature_distribution` leaves the caller's
DataFrame completely unchanged; `plot_temperature_changes` preserves the
rows, their order, and the city, temperature and calendar-date values, but
mutates the caller's DataFrame in place, converting every date cell from a
`datetime.date` object into a `Timestamp`. -/
theorem renderers_effect (df : List (DateCell × String × ℚ)) :
    plot_temperature_distribution df = df ∧
    (plot_temperature_changes df).length = df.length ∧
    (plot_temperature_changes df).map (fun r => (cellDate r.1, r.2.1, r.2.2)) =
      df.map (fun r => (cellDate r.1, r.2.1, r.2.2)) ∧
    (∀ r ∈ plot_temperature_changes df, ∃ d, r.1 = DateCell.timestamp d) ∧
    ∀ l : List Reading, plot_temperature_changes (dfOf l) =
      l.map fun r => (DateCell.timestamp r.date, r.city, r.temperature) := by
  refine ⟨rfl, by simp [plot_temperature_changes], ?_, ?_, ?_⟩
  · rw [plot_temperature_changes, List.map_map]
    refine List.map_congr_left ?_
    intro a _
    rcases a with ⟨cell, c, t⟩
    cases cell <;> rfl
  · intro r hr
    rw [plot_temperature_changes, List.mem_map] at hr
    obtain ⟨⟨cell, c, t⟩, -, rfl⟩ := hr
    cases cell with
    | pyDate d => exact ⟨d, rfl⟩
    | timestamp d => exact ⟨d, rfl⟩
  · intro l
    rw [dfOf, plot_temperature_changes, List.map_map]
    rfl

/-- C9 counterexample: called with an empty city set — a malformed parameter
on which the claim demands an `InvalidParameterError` — the generator raises
nothing and returns an empty dataset. -/
theorem generate_no_validation_cex :
    generateResult ⟨2025, 3, 15⟩ [] 30 (fun _ => 0) =
      Except.ok (generate_weather_data ⟨2025, 3, 15⟩ [] 30 fun _ => 0) ∧
    generate_weather_data ⟨2025, 3, 15⟩ [] 30 (fun _ => 0) = [] ∧
    ¬∃ e, generateResult ⟨2025, 3, 15⟩ [] 30 (fun _ => 0) = Except.error e := by
  refine ⟨rfl, rfl, ?_⟩
  rintro ⟨e, h⟩
  simp [generateResult] at h

/-- C9 (amended): the source performs no parameter validation:
`generate_weather_data` never raises `InvalidParameterError`, and for every
input — malformed or not — it returns its `|C| × N`-row dataset (the empty
dataset when the city set is empty or the window is non-positive). -/
theorem generate_no_validation (today : PyDate) (cities : List String) (n : ℕ)
    (temps : ℕ → ℚ) :
    generateResult today cities n temps =
      Except.ok (generate_weather_data today cities n temps) ∧
    (∀ e, generateResult today cities n temps ≠ Except.error e) ∧
    (generate_weather_data today cities n temps).length = cities.length * n :=
  ⟨rfl, fun e h => by simp [generateResult] at h,
    genAux_length today n temps cities 0⟩

/-! ## Histogram lemmas -/

lemma list_sum_range_map (g : ℕ → ℕ) (K : ℕ) :
    ((List.range K).map g).sum = ∑ j ∈ Finset.range K, g j := by
  induction K with
  | zero => simp
  | succ K ih =>
      rw [List.range_succ, List.map_append, List.sum_append,
        Finset.sum_range_succ, ih]
      simp

lemma binIdx_lt (lo hi x : ℚ) : binIdx lo hi x < 20 := by
  unfold binIdx
  have := Nat.min_le_left 19 (Int.toNat ⌊(x - lo) * 20 / (hi - lo)⌋)
  omega

lemma sum_countP_classifier {α : Type} (f : α → ℕ) (K : ℕ) (l : List α)
    (h : ∀ x ∈ l, f x < K) :
    (∑ j ∈ Finset.range K, l.countP fun x => f x == j) = l.length := by
  induction l with
  | nil => simp
  | cons a t ih =>
      have hfa : f a < K := h a (List.mem_cons_self a t)
      have iht := ih fun x hx => h x (List.mem_cons_of_mem a hx)
      simp only [List.countP_cons, List.length_cons]
      rw [Finset.sum_add_distrib, iht]
      congr 1
      have hcongr : ∀ j ∈ Finset.range K,
          (if (f a == j) = true then 1 else 0) = if f a = j then 1 else 0 := by
        intro j _
        simp [beq_iff_eq]
      rw [Finset.sum_congr rfl hcongr,
        Finset.sum_ite_eq (Finset.range K) (f a) fun _ => 1]
      simp [Finset.mem_range, hfa]

lemma histCounts_sum (l : List ℚ) : (histCounts l).sum = l.length := by
  unfold histCounts
  rw [list_sum_range_map]
  exact sum_countP_classifier (fun x => binIdx (histLo l) (histHi l) x) 20 l
    fun x _ => binIdx_lt _ _ _

/-- C5 counterexample: on a non-empty dataset whose temperatures are all
equal, the 20 bins do not span the observed range `[min, max]`: the lowest
bin edge is `min − 0.5`, not `min` (numpy widens a degenerate range). -/
theorem histogram_span_cex :
    dfOne ≠ [] ∧
    listMin (temperaturesOf dfOne) = listMax (temperaturesOf dfOne) ∧
    binEdge (temperaturesOf dfOne) 0 ≠ listMin (temperaturesOf dfOne) ∧
    binEdge (temperaturesOf dfOne) 0 = listMin (temperaturesOf dfOne) - 1 / 2 := by
  refine ⟨by decide, by decide, ?_, ?_⟩
  · norm_num [binEdge, histLo, histHi, temperaturesOf, dfOne, listMin, listMax]
  · norm_num [binEdge, histLo, histHi, temperaturesOf, dfOne, listMin, listMax]

/-- C5 (amended): for every non-empty dataset the 20 per-bin counts sum to
`|dataset|` and the bins have equal width; when the dataset has two distinct
temperature values the bins span exactly the observed `[min, max]`, while if
all temperatures are equal the bins span `[min − 0.5, max + 0.5]` instead. -/
theorem histogram_bins_sum (df : List Reading) (h : df ≠ []) :
    (histCounts (temperaturesOf df)).length = 20 ∧
    (histCounts (temperaturesOf df)).sum = df.length ∧
    (∀ j : ℕ,
      binEdge (temperaturesOf df) (j + 1) - binEdge (temperaturesOf df) j =
        (histHi (temperaturesOf df) - histLo (temperaturesOf df)) / 20) ∧
    binEdge (temperaturesOf df) 0 = histLo (temperaturesOf df) ∧
    binEdge (temperaturesOf df) 20 = histHi (temperaturesOf df) ∧
    (listMin (temperaturesOf df) < listMax (temperaturesOf df) →
      histLo (temperaturesOf df) = listMin (temperaturesOf df) ∧
      histHi (temperaturesOf df) = listMax (temperaturesOf df)) ∧
    (listMin (temperaturesOf df) = listMax (temperaturesOf df) →
      histLo (temperaturesOf df) = listMin (temperaturesOf df) - 1 / 2 ∧
      histHi (temperaturesOf df) = listMax (temperaturesOf df) + 1 / 2) := by
  refine ⟨by simp [histCounts], ?_, ?_, ?_, ?_, ?_, ?_⟩
  · rw [histCounts_sum]
    simp [temperaturesOf]
  · intro j
    unfold binEdge
    push_cast
    ring
  · unfold binEdge
    push_cast
    ring
  · unfold binEdge
    push_cast
    ring
  · intro hlt
    have hne : listMin (temperaturesOf df) ≠ listMax (temperaturesOf df) :=
      ne_of_lt hlt
    unfold histLo histHi
    rw [if_neg hne, if_neg hne]
    exact ⟨rfl, rfl⟩
  · intro heq
    unfold histLo histHi
    rw [if_pos heq, if_pos heq]
    exact ⟨rfl, rfl⟩

/-- Witness for `histogram_bins_sum` at a concrete non-empty dataset. -/
theorem histogram_bins_sum_witness :
    dfOne ≠ [] ∧
    ((histCounts (temperaturesOf dfOne)).length = 20 ∧
    (histCounts (temperaturesOf dfOne)).sum = dfOne.length ∧
    (∀ j : ℕ,
      binEdge (temperaturesOf dfOne) (j + 1) - binEdge (temperaturesOf dfOne) j =
        (histHi (temperaturesOf dfOne) - histLo (temperaturesOf dfOne)) / 20) ∧
    binEdge (temperaturesOf dfOne) 0 = histLo (temperaturesOf dfOne) ∧
    binEdge (temperaturesOf dfOne) 20 = histHi (temperaturesOf dfOne) ∧
    (listMin (temperaturesOf dfOne) < listMax (temperaturesOf dfOne) →
      histLo (temperaturesOf dfOne) = listMin (temperaturesOf dfOne) ∧
      histHi (temperaturesOf dfOne) = listMax (temperaturesOf dfOne)) ∧
    (listMin (temperaturesOf dfOne) = listMax (temperaturesOf dfOne) →
      histLo (temperaturesOf dfOne) = listMin (temperaturesOf dfOne) - 1 / 2 ∧
      histHi (temperaturesOf dfOne) = listMax (temperaturesOf dfOne) + 1 / 2)) :=
  ⟨by decide, histogram_bins_sum dfOne (by decide)⟩

/-! ## Ordering lemmas -/

lemma genAux_filter_city_not (today : PyDate) (n : ℕ) (temps : ℕ → ℚ) :
    ∀ (cs : List String) (k : ℕ) (c : String), c ∉ cs →
      (genAux today n temps cs k).filter (fun r => r.city == c) = [] := by
  intro cs
  induction cs with
  | nil => intro k c _; rfl
  | cons c' rest ih =>
      intro k c hc
      simp only [genAux, List.filter_append]
      rw [ih (k + 1) c fun h => hc (List.mem_cons_of_mem _ h), List.append_nil]
      rw [List.filter_eq_nil_iff]
      intro a ha
      rw [List.mem_map] at ha
      obtain ⟨i, -, rfl⟩ := ha
      have hne : c' ≠ c := fun h => hc (h ▸ List.mem_cons_self c' rest)
      simp only [beq_iff_eq]
      exact hne

lemma genAux_filter_city (today : PyDate) (n : ℕ) (temps : ℕ → ℚ) :
    ∀ (cs : List String) (k : ℕ) (c : String), cs.Nodup → c ∈ cs →
      ((genAux today n temps cs k).filter (fun r => r.city == c)).map
        Reading.date = cityDates today n := by
  intro cs
  induction cs with
  | nil => intro k c _ h; simp at h
  | cons c' rest ih =>
      intro k c hnd hc
      simp only [genAux, List.filter_append, List.map_append]
      rcases List.mem_cons.mp hc with rfl | hmem
      · rw [genAux_filter_city_not today n temps rest (k + 1) c
          (List.nodup_cons.mp hnd).1]
        rw [List.filter_eq_self.mpr ?_]
        · rw [List.map_map]
          simp [cityDates]
        · intro a ha
          rw [List.mem_map] at ha
          obtain ⟨i, -, rfl⟩ := ha
          simp only [beq_iff_eq]
      · have hne : c' ≠ c := fun h => (List.nodup_cons.mp hnd).1 (h ▸ hmem)
        rw [ih (k + 1) c (List.nodup_cons.mp hnd).2 hmem]
        have hseg : (((List.range n).map fun i =>
            (⟨subDays today (n - i), c', round1 (temps (k * n + i))⟩ : Reading)).filter
              fun r => r.city == c) = [] := by
          rw [List.filter_eq_nil_iff]
          intro a ha
          rw [List.mem_map] at ha
          obtain ⟨i, -, rfl⟩ := ha
          simp only [beq_iff_eq]
          exact hne
        rw [hseg]
        rfl

lemma cityDates_getD (today : PyDate) (n i : ℕ) (h : i < n) :
    (cityDates today n).getD i today = subDays today (n - i) := by
  unfold cityDates
  rw [List.getD_eq_getElem?_getD]
  simp [List.getElem?_map, List.getElem?_range, h]

/-- C10: the generated dataset is city-major in the fixed order London, New
York, Tokyo, Berlin, Moscow, Sydney; within each city the rows run through
the 30 window days in strictly ascending date order (`today − 30` first,
`today − 1` last); and the persisted CSV rows appear in exactly this order. -/
theorem generate_order (today : PyDate) (temps : ℕ → ℚ) (hok : today.ok) :
    (generateFixed today temps).map Reading.city =
      theCities.flatMap (fun c => List.replicate 30 c) ∧
    (∀ c ∈ theCities,
      ((generateFixed today temps).filter (fun r => r.city == c)).map
        Reading.date = cityDates today 30) ∧
    (∀ i : ℕ, i < 30 →
      (cityDates today 30).getD i today = subDays today (30 - i)) ∧
    (∀ i j : ℕ, i < j → j < 30 →
      dateMu ((cityDates today 30).getD i today) <
        dateMu ((cityDates today 30).getD j today)) ∧
    List.Chain' (fun a b => a = PyDate.pred b) (cityDates today 30) ∧
    (persist (generateFixed today temps)).drop 1 =
      (generateFixed today temps).map fun r => String.mk (renderRowChars r) := by
  refine ⟨?_, ?_, fun i hi => cityDates_getD today 30 i hi, ?_,
    cityDates_chain' today 30, rfl⟩
  · exact genAux_map_city today 30 temps theCities 0
  · intro c hc
    exact genAux_filter_city today 30 temps theCities 0 c (by decide) hc
  · intro i j hij hj
    rw [cityDates_getD today 30 i (by omega), cityDates_getD today 30 j hj]
    exact dateMu_subDays_strictAnti hok (by omega)

/-- Witness for `generate_order` at a concrete input. -/
theorem generate_order_witness :
    PyDate.ok ⟨2025, 3, 15⟩ ∧
    ((generateFixed ⟨2025, 3, 15⟩ fun _ => 0).map Reading.city =
      theCities.flatMap (fun c => List.replicate 30 c) ∧
    (∀ c ∈ theCities,
      ((generateFixed ⟨2025, 3, 15⟩ fun _ => 0).filter
        (fun r => r.city == c)).map Reading.date = cityDates ⟨2025, 3, 15⟩ 30) ∧
    (∀ i : ℕ, i < 30 →
      (cityDates ⟨2025, 3, 15⟩ 30).getD i ⟨2025, 3, 15⟩ =
        subDays ⟨2025, 3, 15⟩ (30 - i)) ∧
    (∀ i j : ℕ, i < j → j < 30 →
      dateMu ((cityDates ⟨2025, 3, 15⟩ 30).getD i ⟨2025, 3, 15⟩) <
        dateMu ((cityDates ⟨2025, 3, 15⟩ 30).getD j ⟨2025, 3, 15⟩)) ∧
    List.Chain' (fun a b => a = PyDate.pred b) (cityDates ⟨2025, 3, 15⟩ 30) ∧
    (persist (generateFixed ⟨2025, 3, 15⟩ fun _ => 0)).drop 1 =
      (generateFixed ⟨2025, 3, 15⟩ fun _ => 0).map fun r =>
        String.mk (renderRowChars r)) :=
  ⟨by decide, generate_order ⟨2025, 3, 15⟩ (fun _ => 0) (by decide)⟩

/-! ## Decimal digit lemmas -/

lemma digitChar_toNat {k : ℕ} (h : k < 10) : (digitChar k).toNat = 48 + k := by
  interval_cases k <;> decide

lemma digitChar_ne {k : ℕ} (h : k < 10) :
    digitChar k ≠ '-' ∧ digitChar k ≠ ',' ∧ digitChar k ≠ '.' := by
  interval_cases k <;> exact ⟨by decide, by decide, by decide⟩

lemma mem_natDigits {n : ℕ} {c : Char} (hc : c ∈ natDigits n) :
    ∃ k, k < 10 ∧ c = digitChar k := by
  unfold natDigits at hc
  split at hc
  · refine ⟨0, by norm_num, ?_⟩
    simp only [List.mem_singleton] at hc
    rw [hc]
    decide
  · rw [List.mem_map] at hc
    obtain ⟨d, hd, rfl⟩ := hc
    rw [List.mem_reverse] at hd
    exact ⟨d, Nat.digits_lt_base (by norm_num) hd, rfl⟩

lemma natDigits_ne_nil (n : ℕ) : natDigits n ≠ [] := by
  unfold natDigits
  split
  · simp
  · next h =>
      simp only [ne_eq, List.map_eq_nil_iff, List.reverse_eq_nil_iff]
      exact Nat.digits_ne_nil_iff_ne_zero.mpr h

lemma natDigits_ne_dot (n : ℕ) : ∀ c ∈ natDigits n, c ≠ '.' := by
  intro c hc
  obtain ⟨k, hk, rfl⟩ := mem_natDigits hc
  exact (digitChar_ne hk).2.2

lemma natDigits_ne_comma (n : ℕ) : ∀ c ∈ natDigits n, c ≠ ',' := by
  intro c hc
  obtain ⟨k, hk, rfl⟩ := mem_natDigits hc
  exact (digitChar_ne hk).2.1

lemma foldr_digits (L : List ℕ) (hL : ∀ d ∈ L, d < 10) :
    L.foldr (fun d acc => 10 * acc + ((digitChar d).toNat - 48)) 0 =
      Nat.ofDigits 10 L := by
  induction L with
  | nil => rfl
  | cons d t ih =>
      simp only [List.foldr_cons, Nat.ofDigits_cons]
      rw [ih fun x hx => hL x (List.mem_cons_of_mem _ hx),
        digitChar_toNat (hL d (List.mem_cons_self d t))]
      omega

lemma parseNatChars_natDigits (n : ℕ) : parseNatChars (natDigits n) = n := by
  unfold natDigits
  split
  · next h => rw [h]; rfl
  · unfold parseNatChars
    rw [List.map_reverse, List.foldl_reverse, List.foldr_map]
    rw [foldr_digits (Nat.digits 10 n) fun d hd =>
      Nat.digits_lt_base (by norm_num) hd]
    exact Nat.ofDigits_digits 10 n

lemma parseNatChars_zeros (k : ℕ) (cs : List Char) :
    parseNatChars (List.replicate k '0' ++ cs) = parseNatChars cs := by
  unfold parseNatChars
  rw [List.foldl_append]
  congr 1
  induction k with
  | zero => rfl
  | succ k ih => rw [List.replicate_succ, List.foldl_cons]; exact ih

lemma parseNatChars_padTo (w n : ℕ) : parseNatChars (padTo w n) = n := by
  rw [padTo, parseNatChars_zeros, parseNatChars_natDigits]

lemma mem_padTo {w n : ℕ} {c : Char} (hc : c ∈ padTo w n) :
    c = '0' ∨ ∃ k, k < 10 ∧ c = digitChar k := by
  rw [padTo, List.mem_append] at hc
  rcases hc with hz | hd
  · exact Or.inl (List.eq_of_mem_replicate hz)
  · exact Or.inr (mem_natDigits hd)

lemma padTo_ne {w n : ℕ} : ∀ c ∈ padTo w n, c ≠ '-' ∧ c ≠ ',' ∧ c ≠ '.' := by
  intro c hc
  rcases mem_padTo hc with rfl | ⟨k, hk, rfl⟩
  · exact ⟨by decide, by decide, by decide⟩
  · exact digitChar_ne hk

/-! ## Splitting lemmas -/

lemma splitOnChar_sepFree (sep : Char) :
    ∀ a : List Char, (∀ c ∈ a, c ≠ sep) → splitOnChar sep a = [a] := by
  intro a
  induction a with
  | nil => intro _; rfl
  | cons c cs ih =>
      intro h
      have hc : c ≠ sep := h c (List.mem_cons_self c cs)
      simp only [splitOnChar, if_neg hc]
      rw [ih fun x hx => h x (List.mem_cons_of_mem _ hx)]

lemma splitOnChar_append (sep : Char) :
    ∀ (a b : List Char), (∀ c ∈ a, c ≠ sep) →
      splitOnChar sep (a ++ sep :: b) = a :: splitOnChar sep b := by
  intro a
  induction a with
  | nil =>
      intro b _
      simp [splitOnChar]
  | cons c cs ih =>
      intro b h
      have hc : c ≠ sep := h c (List.mem_cons_self c cs)
      simp only [List.cons_append, splitOnChar, if_neg hc, List.append_eq]
      rw [ih b fun x hx => h x (List.mem_cons_of_mem _ hx)]

/-! ## Parse/format round-trip lemmas -/

lemma formatDateChars_ne_comma (d : PyDate) :
    ∀ c ∈ formatDateChars d, c ≠ ',' := by
  intro c hc
  unfold formatDateChars at hc
  simp only [List.mem_append, List.mem_cons] at hc
  rcases hc with h | rfl | h | rfl | h
  · exact (padTo_ne c h).2.1
  · decide
  · exact (padTo_ne c h).2.1
  · decide
  · exact (padTo_ne c h).2.1

lemma formatTempChars_ne_comma (q : ℚ) :
    ∀ c ∈ formatTempChars q, c ≠ ',' := by
  intro c hc
  unfold formatTempChars at hc
  rcases List.mem_append.mp hc with h1 | h2
  · rcases List.mem_append.mp h1 with ha | hb
    · split at ha
      · simp only [List.mem_singleton] at ha
        rw [ha]
        decide
      · simp at ha
    · exact natDigits_ne_comma _ c hb
  · rcases List.mem_cons.mp h2 with rfl | h5
    · decide
    · simp only [List.mem_singleton] at h5
      rw [h5]
      exact (digitChar_ne (Nat.mod_lt _ (by norm_num))).2.1

lemma parseDateChars_formatDateChars (d : PyDate) (hy : 0 ≤ d.year)
    (hm : 0 ≤ d.month) (hd : 0 ≤ d.day) :
    parseDateChars (formatDateChars d) = some d := by
  unfold formatDateChars parseDateChars
  rw [splitOnChar_append '-' (padTo 4 d.year.toNat) _
      fun c hc => (padTo_ne c hc).1,
    splitOnChar_append '-' (padTo 2 d.month.toNat) _
      fun c hc => (padTo_ne c hc).1,
    splitOnChar_sepFree '-' (padTo 2 d.day.toNat)
      fun c hc => (padTo_ne c hc).1]
  simp only [parseNatChars_padTo]
  rw [Int.toNat_of_nonneg hy, Int.toNat_of_nonneg hm, Int.toNat_of_nonneg hd]

lemma parseTempPos_format (na : ℕ) :
    parseTempPos (natDigits (na / 10) ++ '.' :: [digitChar (na % 10)]) =
      (na : ℚ) / 10 := by
  unfold parseTempPos
  rw [splitOnChar_append '.' (natDigits (na / 10)) _ (natDigits_ne_dot _),
    splitOnChar_sepFree '.' [digitChar (na % 10)] ?_]
  · simp only [parseNatChars_natDigits]
    have hb : parseNatChars [digitChar (na % 10)] = na % 10 := by
      unfold parseNatChars
      simp only [List.foldl_cons, List.foldl_nil]
      rw [digitChar_toNat (Nat.mod_lt na (by norm_num))]
      omega
    rw [hb]
    have hdm : 10 * (na / 10) + na % 10 = na := Nat.div_add_mod na 10
    have hcast : ((na : ℚ)) = 10 * ((na / 10 : ℕ) : ℚ) + ((na % 10 : ℕ) : ℚ) := by
      exact_mod_cast congrArg (Nat.cast : ℕ → ℚ) hdm.symm
    rw [hcast]
    simp only [List.length_singleton, pow_one]
    ring
  · intro c hc
    simp only [List.mem_singleton] at hc
    rw [hc]
    exact (digitChar_ne (Nat.mod_lt na (by norm_num))).2.2

lemma parseTempChars_formatTempChars (q : ℚ) (m : ℤ)
    (hq : q = (m : ℚ) / 10) :
    parseTempChars (formatTempChars q) = q := by
  have hq10 : q * 10 = (m : ℚ) := by
    rw [hq]
    field_simp
  have hfloor : ⌊q * 10⌋ = m := by
    rw [hq10, Int.floor_intCast]
  unfold formatTempChars
  rw [hfloor]
  by_cases hm : m < 0
  · rw [if_pos hm]
    simp only [List.singleton_append, List.cons_append]
    simp only [parseTempChars, if_true, List.nil_append]
    rw [parseTempPos_format m.natAbs]
    have habs : ((m.natAbs : ℕ) : ℚ) = -(m : ℚ) := by
      rw [Int.cast_natAbs, abs_of_neg hm]
      push_cast
      ring
    rw [habs, hq]
    ring
  · rw [if_neg hm]
    simp only [List.nil_append]
    obtain ⟨c0, cs0, hcons⟩ :=
      List.exists_cons_of_ne_nil (natDigits_ne_nil (m.natAbs / 10))
    have hc0 : c0 ≠ '-' := by
      have : c0 ∈ natDigits (m.natAbs / 10) := by
        rw [hcons]
        exact List.mem_cons_self c0 cs0
      obtain ⟨k, hk, rfl⟩ := mem_natDigits this
      exact (digitChar_ne hk).1
    rw [hcons, List.cons_append]
    simp only [parseTempChars]
    rw [if_neg hc0, ← List.cons_append, ← hcons, parseTempPos_format m.natAbs]
    have habs : ((m.natAbs : ℕ) : ℚ) = (m : ℚ) := by
      rw [Int.cast_natAbs, abs_of_nonneg (not_lt.mp hm)]
    rw [habs, hq]

lemma parseRowChars_renderRowChars (r : Reading)
    (hcity : ∀ ch ∈ r.city.data, ch ≠ ',')
    (hy : 0 ≤ r.date.year) (hm : 0 ≤ r.date.month) (hd : 0 ≤ r.date.day)
    (ht : ∃ m : ℤ, r.temperature = (m : ℚ) / 10) :
    parseRowChars (renderRowChars r) = some r := by
  obtain ⟨m, hq⟩ := ht
  unfold parseRowChars renderRowChars
  rw [splitOnChar_append ',' (formatDateChars r.date) _
      (formatDateChars_ne_comma r.date),
    splitOnChar_append ',' r.city.data _ hcity,
    splitOnChar_sepFree ',' (formatTempChars r.temperature)
      (formatTempChars_ne_comma _)]
  show ((parseDateChars (formatDateChars r.date)).map fun pd =>
      (⟨pd, String.mk r.city.data,
        parseTempChars (formatTempChars r.temperature)⟩ : Reading)) = some r
  rw [parseDateChars_formatDateChars r.date hy hm hd,
    parseTempChars_formatTempChars r.temperature m hq]
  rfl

lemma mapM_map_some {α β : Type} (g : α → β) (f : β → Option α) :
    ∀ l : List α, (∀ x ∈ l, f (g x) = some x) → (l.map g).mapM f = some l := by
  intro l
  induction l with
  | nil => intro _; rfl
  | cons a t ih =>
      intro h
      rw [List.map_cons, List.mapM_cons, h a (List.mem_cons_self a t),
        ih fun x hx => h x (List.mem_cons_of_mem _ hx)]
      rfl

/-- C8: parsing the CSV produced by `persist` reconstructs the generated
dataset exactly — in particular the same set of `(date, city, temperature)`
tuples under order-insensitive equality — for any seeded temperature stream,
any comma-free city names, and any window that stays within the positive
years every real `datetime.date` lives in. -/
theorem csv_roundtrip (today : PyDate) (cities : List String) (n : ℕ)
    (temps : ℕ → ℚ) (hok : today.ok) (hyear : (n : ℤ) ≤ today.year)
    (hc : ∀ c ∈ cities, ∀ ch ∈ c.data, ch ≠ ',') :
    parseCsv (persist (generate_weather_data today cities n temps)) =
      some (generate_weather_data today cities n temps) := by
  unfold parseCsv persist
  simp only [List.drop_succ_cons, List.drop_zero]
  refine mapM_map_some (fun r => String.mk (renderRowChars r))
    (fun s => parseRowChars s.data) _ ?_
  intro r hr
  obtain ⟨hcity, ⟨j, hj1, hj2, hdate⟩, m, htemp⟩ := mem_genAux hr
  obtain ⟨hm1, -, hd1, -⟩ := ok_subDays hok j
  have hyr := subDays_year_ge today j
  refine parseRowChars_renderRowChars r (hc r.city hcity) ?_ ?_ ?_ ?_
  · rw [hdate]
    omega
  · rw [hdate]
    omega
  · rw [hdate]
    omega
  · exact ⟨roundHalfToEven (temps m * 10), by rw [htemp]; rfl⟩

/-- Witness for `csv_roundtrip` at a concrete input. -/
theorem csv_roundtrip_witness :
    (PyDate.ok ⟨2025, 3, 15⟩ ∧ ((3 : ℕ) : ℤ) ≤ (⟨2025, 3, 15⟩ : PyDate).year ∧
      ∀ c ∈ (["A", "B"] : List String), ∀ ch ∈ c.data, ch ≠ ',') ∧
    parseCsv (persist (generate_weather_data ⟨2025, 3, 15⟩ ["A", "B"] 3
        fun _ => 0)) =
      some (generate_weather_data ⟨2025, 3, 15⟩ ["A", "B"] 3 fun _ => 0) :=
  ⟨⟨by decide, by decide, by decide⟩,
    csv_roundtrip ⟨2025, 3, 15⟩ ["A", "B"] 3 (fun _ => 0) (by decide)
      (by decide) (by decide)⟩

/-- C7: the persisted CSV consists of the header line `date,city,temperature`
followed by exactly one row per reading in insertion order; each row is the
ISO-8601 `YYYY-MM-DD` date, the city, and the temperature, comma-separated,
with the temperature carrying exactly one fractional digit. -/
theorem persist_csv_format (today : PyDate) (cities : List String) (n : ℕ)
    (temps : ℕ → ℚ) :
    (persist (generate_weather_data today cities n temps)).head? =
      some "date,city,temperature" ∧
    (persist (generate_weather_data today cities n temps)).length =
      (generate_weather_data today cities n temps).length + 1 ∧
    (persist (generate_weather_data today cities n temps)).drop 1 =
      (generate_weather_data today cities n temps).map
        (fun r => String.mk (renderRowChars r)) ∧
    (∀ r ∈ generate_weather_data today cities n temps,
      renderRowChars r = formatDateChars r.date ++
        ',' :: (r.city.data ++ ',' :: formatTempChars r.temperature)) ∧
    (∀ r ∈ generate_weather_data today cities n temps,
      ∃ a k, k < 10 ∧
        formatTempChars r.temperature = a ++ ['.', digitChar k] ∧
        ∀ c ∈ a, c ≠ '.') := by
  refine ⟨rfl, by simp [persist], rfl, fun r _ => rfl, ?_⟩
  intro r hr
  refine ⟨(if ⌊r.temperature * 10⌋ < 0 then ['-'] else []) ++
      natDigits (⌊r.temperature * 10⌋.natAbs / 10),
    ⌊r.temperature * 10⌋.natAbs % 10, Nat.mod_lt _ (by norm_num), rfl, ?_⟩
  intro c hcmem
  rcases List.mem_append.mp hcmem with hsign | hdig
  · by_cases hlt : ⌊r.temperature * 10⌋ < 0
    · rw [if_pos hlt] at hsign
      simp only [List.mem_singleton] at hsign
      rw [hsign]
      decide
    · rw [if_neg hlt] at hsign
      simp at hsign
  · exact natDigits_ne_dot _ c hdig
